import Mathlib

/-!
Verification of the permission evaluation engine of safe-notion
(src/permissions.ts), as a shallow embedding.

Identifiers are JavaScript strings.  The Notion client is modelled as a
`Store` of probe functions (one per resource kind, mirroring
`client.pages.retrieve`, `client.blocks.retrieve`,
`client.databases.retrieve`, plus the page-property fetch used by
`checkWriteCondition`).  The module-level mutable cache `parentCache`
becomes an explicit `PState` value threaded through the functions; the
state also records the remote calls issued, newest first, so that
claims about "no second remote call" are statable.  `Date.now()` is a
`Nat` parameter.
-/

namespace SafeNotion

/-- ASCII lower-casing of one character: models the effect of the
JavaScript `String.prototype.toLowerCase` on the basic latin range
(resource ids are UUID-shaped ASCII strings). -/
def jsCharLower (c : Char) : Char :=
  if h : 65 ≤ c.toNat ∧ c.toNat ≤ 90 then
    Char.ofNatAux (c.toNat + 32) (Or.inl (by omega))
  else c

/-- ASCII upper-casing of one character; used only to state the
case-insensitivity claim about `idsMatch`. -/
def jsCharUpper (c : Char) : Char :=
  if h : 97 ≤ c.toNat ∧ c.toNat ≤ 122 then
    Char.ofNatAux (c.toNat - 32) (Or.inl (by omega))
  else c

/-- Models the global hyphen replacement `id.replace(hyphen, "")`:
drop every hyphen. -/
def removeHyphens (s : String) : String :=
  String.mk (s.data.filter (fun c => c ≠ '-'))

/-- Models `s.toLowerCase()` on ASCII strings. -/
def jsToLowerCase (s : String) : String :=
  String.mk (s.data.map jsCharLower)

/-- Helper for stating the case-insensitivity claim. -/
def jsToUpperCase (s : String) : String :=
  String.mk (s.data.map jsCharUpper)

/-- Source: `normalizeId` (permissions.ts line 18):
strip all hyphens, then lower-case. -/
def normalizeId (id : String) : String :=
  jsToLowerCase (removeHyphens id)

/-- Source: `idsMatch` (permissions.ts line 22):
`normalizeId(id1) === normalizeId(id2)`. -/
def idsMatch (id1 id2 : String) : Bool :=
  normalizeId id1 == normalizeId id2

/-- Outcome of one `retrieve` call against the remote store:
the call throws, succeeds without a `parent` field, or succeeds and
carries a decoded parent field of the given shape. -/
inductive Probe (α : Type) where
  | err : Probe α
  | okNoParent : Probe α
  | ok (parent : α) : Probe α
deriving DecidableEq

/-- Shape of `page.parent` as inspected by `getParentId`
(permissions.ts lines 43 to 50).  `dataSourceId none` is a
`data_source_id` parent without a `database_id` field. -/
inductive PageParentField where
  | pageId (id : String)
  | databaseId (id : String)
  | dataSourceId (databaseId : Option String)
  | other
deriving DecidableEq

/-- Shape of `block.parent` as inspected on lines 60 to 66. -/
inductive BlockParentField where
  | pageId (id : String)
  | databaseId (id : String)
  | blockId (id : String)
  | other
deriving DecidableEq

/-- Shape of `db.parent` as inspected on lines 76 to 78. -/
inductive DbParentField where
  | pageId (id : String)
  | other
deriving DecidableEq

/-- A typed Notion page property value, tagged exactly as
`checkWriteCondition` discriminates on `property.type`
(permissions.ts lines 137 to 157).  `otherType` is a property whose
reported type is none of the five handled tags. -/
inductive PropertyValue where
  | people (ids : List String)
  | select (name : Option String)
  | multiSelect (names : List String)
  | status (name : Option String)
  | checkbox (value : Bool)
  | otherType
deriving DecidableEq

/-- Outcome of the `pages.retrieve` issued by `checkWriteCondition`:
throw, success without a `properties` field, or success with the
property map (an association list keyed by property name). -/
inductive PropsProbe where
  | err
  | okNoProps
  | ok (props : List (String × PropertyValue))
deriving DecidableEq

/-- The remote resource store, keyed by the raw (non-normalized)
resource id, exactly as the code passes `resourceId` to the client. -/
structure Store where
  pages : String → Probe PageParentField
  blocks : String → Probe BlockParentField
  databases : String → Probe DbParentField
  pageProps : String → PropsProbe

/-- Decoding of a page parent (lines 42 to 50): `page_id` and
`database_id` give that id; `data_source_id` gives the `database_id`
field when present; anything else leaves `parentId` null. -/
def decodePageParent : PageParentField → Option String
  | .pageId i => some i
  | .databaseId i => some i
  | .dataSourceId (some d) => some d
  | .dataSourceId none => none
  | .other => none

/-- Decoding of a block parent (lines 59 to 66). -/
def decodeBlockParent : BlockParentField → Option String
  | .pageId i => some i
  | .databaseId i => some i
  | .blockId i => some i
  | .other => none

/-- Decoding of a database parent (lines 75 to 78). -/
def decodeDbParent : DbParentField → Option String
  | .pageId i => some i
  | .other => none

/-- Source: `CacheEntry` (permissions.ts lines 11 to 14). -/
structure CacheEntry where
  value : Option String
  expiresAt : Nat
deriving DecidableEq

/-- One remote retrieval, recorded for the cache and probe-order
claims. -/
inductive RemoteCall where
  | pageRetrieve (id : String)
  | blockRetrieve (id : String)
  | databaseRetrieve (id : String)
deriving DecidableEq

/-- The mutable module state of permissions.ts: the `parentCache`
map (modelled as an association list where an insert shadows older
entries) together with the log of remote calls issued, newest
first. -/
structure PState where
  cache : List (String × CacheEntry)
  calls : List RemoteCall
deriving DecidableEq

/-- Source: `CACHE_TTL_MS = 10 * 60 * 1000` (line 16). -/
def CACHE_TTL_MS : Nat := 10 * 60 * 1000

/-- `parentCache.get`: first entry with the given key. -/
def cacheFind : List (String × CacheEntry) → String → Option CacheEntry
  | [], _ => none
  | (k, e) :: rest, key => if k = key then some e else cacheFind rest key

/-- The initial module state: empty cache, no calls issued. -/
def pstate0 : PState := { cache := [], calls := [] }

/-- The cache-miss path of `getParentId` (permissions.ts lines 38 to
89): probe the id as a page, then as a block, then as a database,
stopping at the first kind whose retrieval does not throw; decode that
kind of parent; cache the outcome (also the all-probes-failed `null`)
under the normalized id with expiry `now + CACHE_TTL_MS`. -/
def getParentIdFetch (store : Store) (now : Nat) (st : PState)
    (resourceId normalizedId : String) : Option String × PState :=
  let st1 : PState := { st with calls := RemoteCall.pageRetrieve resourceId :: st.calls }
  match store.pages resourceId with
  | .ok f =>
      let parentId := decodePageParent f
      (parentId, { st1 with
        cache := (normalizedId, ⟨parentId, now + CACHE_TTL_MS⟩) :: st1.cache })
  | .okNoParent =>
      (none, { st1 with
        cache := (normalizedId, ⟨none, now + CACHE_TTL_MS⟩) :: st1.cache })
  | .err =>
    let st2 : PState := { st1 with calls := RemoteCall.blockRetrieve resourceId :: st1.calls }
    match store.blocks resourceId with
    | .ok f =>
        let parentId := decodeBlockParent f
        (parentId, { st2 with
          cache := (normalizedId, ⟨parentId, now + CACHE_TTL_MS⟩) :: st2.cache })
    | .okNoParent =>
        (none, { st2 with
          cache := (normalizedId, ⟨none, now + CACHE_TTL_MS⟩) :: st2.cache })
    | .err =>
      let st3 : PState :=
        { st2 with calls := RemoteCall.databaseRetrieve resourceId :: st2.calls }
      match store.databases resourceId with
      | .ok f =>
          let parentId := decodeDbParent f
          (parentId, { st3 with
            cache := (normalizedId, ⟨parentId, now + CACHE_TTL_MS⟩) :: st3.cache })
      | .okNoParent =>
          (none, { st3 with
            cache := (normalizedId, ⟨none, now + CACHE_TTL_MS⟩) :: st3.cache })
      | .err =>
          (none, { st3 with
            cache := (normalizedId, ⟨none, now + CACHE_TTL_MS⟩) :: st3.cache })

/-- Source: `getParentId` (permissions.ts lines 26 to 90).  A live
(not yet expired) cache entry for the normalized id is returned as is;
otherwise the store is probed via `getParentIdFetch`. -/
def getParentId (store : Store) (now : Nat) (st : PState) (resourceId : String) :
    Option String × PState :=
  let normalizedId := normalizeId resourceId
  match cacheFind st.cache normalizedId with
  | some cached =>
      if now < cached.expiresAt then (cached.value, st)
      else getParentIdFetch store now st resourceId normalizedId
  | none => getParentIdFetch store now st resourceId normalizedId

/-- The `while` loop of `isDescendantOf` (permissions.ts lines 102 to
115), fuel = `maxDepth - depth`.  The `currentId == ""` and
`parentId == ""` tests model the JavaScript falsiness of the empty
string in `while (currentId ...)` and `if (!parentId)`. -/
def isDescLoop (store : Store) (now : Nat) (ancestorId : String) :
    Nat → String → PState → Bool × PState
  | 0, _, st => (false, st)
  | fuel + 1, currentId, st =>
    if currentId == "" then (false, st)
    else
      match getParentId store now st currentId with
      | (none, st1) => (false, st1)
      | (some parentId, st1) =>
        if parentId == "" then (false, st1)
        else if idsMatch parentId ancestorId then (true, st1)
        else isDescLoop store now ancestorId fuel parentId st1

/-- Source: `isDescendantOf` (permissions.ts lines 92 to 118).  The
default `maxDepth` is 10; every caller in the repository uses the
default, so call sites below pass 10 explicitly. -/
def isDescendantOf (store : Store) (now : Nat) (st : PState)
    (resourceId ancestorId : String) (maxDepth : Nat) : Bool × PState :=
  if idsMatch resourceId ancestorId then (true, st)
  else isDescLoop store now ancestorId maxDepth resourceId st

/-- The `type` field of a condition (types.ts `ConditionSchema`). -/
inductive CondType where
  | people
  | select
  | multiSelect
  | status
  | checkbox
deriving DecidableEq

/-- The `equals` field of a condition: `z.union([z.string(), z.boolean()])`. -/
inductive CondEquals where
  | str (s : String)
  | bool (b : Bool)
deriving DecidableEq

/-- JavaScript strict equality `x === condition.equals` where `x` is a
string: a boolean `equals` never equals a string. -/
def strictEqStr : CondEquals → String → Bool
  | .str s, t => s == t
  | .bool _, _ => false

/-- JavaScript strict equality `x === condition.equals` where `x` is a
boolean: a string `equals` never equals a boolean. -/
def strictEqBool : CondEquals → Bool → Bool
  | .bool b, c => b == c
  | .str _, _ => false

/-- JavaScript string interpolation of the `equals` value, used in the
unmet-condition reason. -/
def condEqualsText : CondEquals → String
  | .str s => s
  | .bool b => if b then "true" else "false"

/-- The shape `WriteCondition` that `checkWriteCondition` consumes:
`{ property, type, equals }`.  (In types.ts the exported name is
`Condition` and the rule field is `condition`, while permissions.ts
reads `rule.writeCondition`; see the note at `Rule`.) -/
structure WriteCondition where
  property : String
  type : CondType
  equals : CondEquals
deriving DecidableEq

/-- `page.properties[condition.property]` lookup. -/
def propFind : List (String × PropertyValue) → String → Option PropertyValue
  | [], _ => none
  | (k, v) :: rest, key => if k = key then some v else propFind rest key

/-- Source: `checkWriteCondition` (permissions.ts lines 120 to 164).
Fetches the page, and returns `false` when the fetch throws, the
`properties` field is missing, the named property is absent, or the
property type differs from the condition type; otherwise tests the
type-specific match.  The function performs one `pages.retrieve`;
since it never touches the parent cache it is modelled as a pure
function of the store. -/
def checkWriteCondition (store : Store) (pageId : String)
    (condition : WriteCondition) : Bool :=
  match store.pageProps pageId with
  | .err => false
  | .okNoProps => false
  | .ok props =>
    match propFind props condition.property with
    | none => false
    | some property =>
      match condition.type with
      | .people =>
        match property with
        | .people ids => ids.any (fun i => strictEqStr condition.equals i)
        | _ => false
      | .select =>
        match property with
        | .select (some name) => strictEqStr condition.equals name
        | .select none => false
        | _ => false
      | .multiSelect =>
        match property with
        | .multiSelect names => names.any (fun n => strictEqStr condition.equals n)
        | _ => false
      | .status =>
        match property with
        | .status (some name) => strictEqStr condition.equals name
        | .status none => false
        | _ => false
      | .checkbox =>
        match property with
        | .checkbox value => strictEqBool condition.equals value
        | _ => false

/-- Source: `Rule` (types.ts `RuleSchema`): name, optional `pageId`,
optional `databaseId`, a permission list, and an optional condition.
The field is called `writeCondition` here because that is the name
`checkPermission` reads (permissions.ts line 216); types.ts declares
the field as `condition`, so a zod-parsed config leaves
`rule.writeCondition` undefined at runtime.  No claim below depends on
which of the two bindings is used, and binding the configured
condition is the reading most favourable to the code. -/
structure Rule where
  name : String
  pageId : Option String
  databaseId : Option String
  permissions : List String
  writeCondition : Option WriteCondition
deriving DecidableEq

/-- Source: `Config` (types.ts `ConfigSchema`): a rule list plus
`defaultPermission`, one of the strings "deny" and "read". -/
structure Config where
  rules : List Rule
  defaultPermission : String
deriving DecidableEq

/-- Source: `PermissionCheckResult` (types.ts). -/
structure PermissionCheckResult where
  allowed : Bool
  rule : Option Rule
  reason : String
deriving DecidableEq

/-- A single-quote character, used by the reason strings. -/
def sq : String := String.singleton (Char.ofNat 39)

/-- JavaScript truthiness of `rule.pageId` and `rule.databaseId`
(string or undefined): false for undefined and for the empty string. -/
def jsTruthy : Option String → Bool
  | none => false
  | some s => s != ""

/-- Lookup in the `permissionMap` object literal of `checkPermission`
(permissions.ts lines 194 to 199): only the four keys `read`, `write`,
`create`, `delete` exist; any other operation string, in particular
every granular `resource:operation` value of `OperationType`
(types.ts), yields `undefined`. -/
def permissionMapLookup (operation : String) : Option String :=
  if operation = "read" then some "read"
  else if operation = "write" then some "write"
  else if operation = "create" then some "create"
  else if operation = "delete" then some "delete"
  else none

/-- The body of the rule loop up to `matches` (permissions.ts lines
175 to 190): a truthy `pageId` is checked with `isDescendantOf` at the
default depth 10; otherwise a truthy `databaseId` matches the resource
itself or, failing that, a truthy immediate parent equal to the
database id. -/
def ruleMatches (store : Store) (now : Nat) (st : PState)
    (resourceId : String) (rule : Rule) : Bool × PState :=
  if jsTruthy rule.pageId then
    isDescendantOf store now st resourceId (rule.pageId.getD "") 10
  else if jsTruthy rule.databaseId then
    let databaseId := rule.databaseId.getD ""
    if idsMatch resourceId databaseId then (true, st)
    else
      match getParentId store now st resourceId with
      | (some parentId, st1) =>
          ((parentId != "") && idsMatch parentId databaseId, st1)
      | (none, st1) => (false, st1)
  else (false, st)

/-- The matched-rule part of `checkPermission` (permissions.ts lines
192 to 239): permission lookup through `permissionMap`
(`rule.permissions.includes(undefined)` is false for an unmapped
operation), then the write-condition gate for the operations `write`
and `create`, then allow. -/
def matchedDecision (store : Store) (rule : Rule)
    (resourceId operation : String) (pageIdForCondition : Option String)
    (st : PState) : PermissionCheckResult × PState :=
  let hasPermission :=
    match permissionMapLookup operation with
    | some p => rule.permissions.contains p
    | none => false
  if !hasPermission then
    ({ allowed := false, rule := some rule,
       reason := "Operation " ++ sq ++ operation ++ sq ++
         " not allowed by rule " ++ sq ++ rule.name ++ sq }, st)
  else
    match rule.writeCondition with
    | some writeCondition =>
      if operation == "write" || operation == "create" then
        let targetPageId := pageIdForCondition.getD resourceId
        let conditionMet := checkWriteCondition store targetPageId writeCondition
        if !conditionMet then
          ({ allowed := false, rule := some rule,
             reason := "Write condition not met: " ++ writeCondition.property ++
               " must equal " ++ sq ++ condEqualsText writeCondition.equals ++ sq }, st)
        else
          ({ allowed := true, rule := some rule,
             reason := "Allowed by rule " ++ sq ++ rule.name ++ sq }, st)
      else
        ({ allowed := true, rule := some rule,
           reason := "Allowed by rule " ++ sq ++ rule.name ++ sq }, st)
    | none =>
        ({ allowed := true, rule := some rule,
           reason := "Allowed by rule " ++ sq ++ rule.name ++ sq }, st)

/-- The default decision after the rule loop (permissions.ts lines 242
to 253): allow only when `defaultPermission === "read"` and
`operation === "read"` (the literal string, which no granular
operation equals); otherwise deny. -/
def defaultDecision (defaultPermission operation : String) : PermissionCheckResult :=
  if defaultPermission == "read" && operation == "read" then
    { allowed := true, rule := none, reason := "Allowed by default read permission" }
  else
    { allowed := false, rule := none,
      reason := "No matching rule and default permission is deny" }

/-- The rule loop of `checkPermission` (permissions.ts lines 174 to
240): first match wins, the loop state (the parent cache) threads
through failed match attempts. -/
def checkPermissionGo (store : Store) (now : Nat) (resourceId operation : String)
    (pageIdForCondition : Option String) (defaultPermission : String) :
    List Rule → PState → PermissionCheckResult × PState
  | [], st => (defaultDecision defaultPermission operation, st)
  | rule :: rest, st =>
    let m := ruleMatches store now st resourceId rule
    if m.1 then matchedDecision store rule resourceId operation pageIdForCondition m.2
    else checkPermissionGo store now resourceId operation pageIdForCondition
      defaultPermission rest m.2

/-- Source: `checkPermission` (permissions.ts lines 166 to 254). -/
def checkPermission (store : Store) (now : Nat) (st : PState) (config : Config)
    (resourceId operation : String) (pageIdForCondition : Option String) :
    PermissionCheckResult × PState :=
  checkPermissionGo store now resourceId operation pageIdForCondition
    config.defaultPermission config.rules st

/-- Source: `clearCache` (permissions.ts lines 256 to 258):
`parentCache.clear()`. -/
def clearCache (st : PState) : PState :=
  { cache := [], calls := st.calls }

/-- The rule-matcher of the spec, read off the same loop: the first
rule whose match predicate comes out true, with the threaded state. -/
def findMatchingRule (store : Store) (now : Nat) (resourceId : String) :
    List Rule → PState → Option Rule × PState
  | [], st => (none, st)
  | rule :: rest, st =>
    let m := ruleMatches store now st resourceId rule
    if m.1 then (some rule, m.2)
    else findMatchingRule store now resourceId rest m.2

/-- Pure mirror of the `isDescendantOf` loop over a parent assignment
`g` (the function the remote store computes); used to state the walk
and transitivity claims. -/
def reachesLoop (g : String → Option String) (ancestorId : String) :
    Nat → String → Bool
  | 0, _ => false
  | fuel + 1, currentId =>
    if currentId == "" then false
    else
      match g currentId with
      | none => false
      | some parentId =>
        if parentId == "" then false
        else if idsMatch parentId ancestorId then true
        else reachesLoop g ancestorId fuel parentId

/-- Pure mirror of `isDescendantOf` over a parent assignment. -/
def descends (g : String → Option String) (resourceId ancestorId : String)
    (maxDepth : Nat) : Bool :=
  idsMatch resourceId ancestorId || reachesLoop g ancestorId maxDepth resourceId

/-- A store whose pages endpoint realizes the parent assignment `g`
and whose other endpoints are never reached. -/
def storeOfFun (g : String → Option String) : Store where
  pages := fun x =>
    match g x with
    | some p => Probe.ok (PageParentField.pageId p)
    | none => Probe.ok PageParentField.other
  blocks := fun _ => Probe.err
  databases := fun _ => Probe.err
  pageProps := fun _ => PropsProbe.err

/-- A parent assignment respects id normalization: it is determined by
the normalized id.  Real Notion ids satisfy this (hyphenation and
letter case do not change the resource). -/
def NormInvariant (g : String → Option String) : Prop :=
  ∀ x y, normalizeId x = normalizeId y → g x = g y

/-- A cache state is coherent with the parent assignment `g` at time
`now`: every live entry stores the value `g` gives for its key.  The
empty cache is coherent. -/
def Coh (g : String → Option String) (now : Nat) (st : PState) : Prop :=
  ∀ k e, cacheFind st.cache k = some e → now < e.expiresAt → e.value = g k

/-- There is no live cache entry for `key` in `st` at time `now`
(either no entry at all, or only an expired one): the hypothesis of
the cache-miss claims. -/
def NoLiveEntry (st : PState) (now : Nat) (key : String) : Prop :=
  ∀ e, cacheFind st.cache key = some e → e.expiresAt ≤ now

/-- A finite parent assignment given by pairs, looked up on the
normalized id (so it is normalization invariant by construction). -/
def funOfPairs (pairs : List (String × String)) : String → Option String :=
  fun x => (pairs.find? (fun p => p.1 == normalizeId x)).map (fun p => p.2)

/-- A store on which every retrieval throws. -/
def emptyStore : Store where
  pages := fun _ => Probe.err
  blocks := fun _ => Probe.err
  databases := fun _ => Probe.err
  pageProps := fun _ => PropsProbe.err

/-! ## Normalization helper lemmas -/

theorem toNat_ofNatAux (n : Nat) (h : n.isValidChar) : (Char.ofNatAux n h).toNat = n := rfl

theorem char_toNat_inj (a b : Char) (h : a.toNat = b.toNat) : a = b := by
  apply Char.eq_of_val_eq
  apply UInt32.eq_of_val_eq
  exact Fin.eq_of_val_eq h

theorem toNat_jsCharLower (c : Char) :
    (jsCharLower c).toNat =
      if 65 ≤ c.toNat ∧ c.toNat ≤ 90 then c.toNat + 32 else c.toNat := by
  unfold jsCharLower
  split <;> simp_all [toNat_ofNatAux]

theorem toNat_jsCharUpper (c : Char) :
    (jsCharUpper c).toNat =
      if 97 ≤ c.toNat ∧ c.toNat ≤ 122 then c.toNat - 32 else c.toNat := by
  unfold jsCharUpper
  split <;> simp_all [toNat_ofNatAux]

theorem jsCharLower_idem (c : Char) : jsCharLower (jsCharLower c) = jsCharLower c := by
  apply char_toNat_inj
  have h1 := toNat_jsCharLower c
  have h2 := toNat_jsCharLower (jsCharLower c)
  split at h1 <;> split at h2 <;> omega

theorem hyphen_toNat : ('-' : Char).toNat = 45 := rfl

theorem jsCharLower_hyphen_iff (c : Char) : jsCharLower c = '-' ↔ c = '-' := by
  constructor
  · intro h
    apply char_toNat_inj
    have h1 := toNat_jsCharLower c
    have h2 : (jsCharLower c).toNat = 45 := by rw [h]; rfl
    rw [hyphen_toNat]
    split at h1 <;> omega
  · intro h
    subst h
    rfl

theorem jsCharUpper_hyphen_iff (c : Char) : jsCharUpper c = '-' ↔ c = '-' := by
  constructor
  · intro h
    apply char_toNat_inj
    have h1 := toNat_jsCharUpper c
    have h2 : (jsCharUpper c).toNat = 45 := by rw [h]; rfl
    rw [hyphen_toNat]
    split at h1 <;> omega
  · intro h
    subst h
    rfl

theorem jsCharLower_jsCharUpper (c : Char) :
    jsCharLower (jsCharUpper c) = jsCharLower c := by
  apply char_toNat_inj
  have h1 := toNat_jsCharUpper c
  have h2 := toNat_jsCharLower (jsCharUpper c)
  have h3 := toNat_jsCharLower c
  split at h1 <;> split at h2 <;> split at h3 <;> omega

theorem data_normalizeId (s : String) :
    (normalizeId s).data = (s.data.filter (fun c => c ≠ '-')).map jsCharLower := rfl

theorem normalizeId_mk (l : List Char) :
    normalizeId (String.mk l) = String.mk ((l.filter (fun c => c ≠ '-')).map jsCharLower) := rfl

theorem normalizeId_idem (s : String) : normalizeId (normalizeId s) = normalizeId s := by
  apply String.ext
  rw [data_normalizeId, data_normalizeId]
  rw [List.filter_eq_self.mpr, List.map_map]
  · apply List.map_congr_left
    intro c _
    exact jsCharLower_idem c
  · intro a ha
    simp only [List.mem_map, List.mem_filter] at ha
    obtain ⟨b, ⟨_, hb⟩, rfl⟩ := ha
    simp only [ne_eq, decide_eq_true_eq] at hb ⊢
    intro hcontra
    exact hb ((jsCharLower_hyphen_iff b).mp hcontra)

theorem idsMatch_eq_true_iff (x y : String) :
    idsMatch x y = true ↔ normalizeId x = normalizeId y := by
  unfold idsMatch
  exact beq_iff_eq

theorem idsMatch_refl (x : String) : idsMatch x x = true := by
  rw [idsMatch_eq_true_iff]

theorem idsMatch_comm (x y : String) : idsMatch x y = idsMatch y x := by
  unfold idsMatch
  by_cases h : normalizeId x = normalizeId y
  · rw [h]
  · rw [beq_eq_false_iff_ne.mpr h, beq_eq_false_iff_ne.mpr (fun hc => h hc.symm)]

theorem idsMatch_trans (x y z : String) (h1 : idsMatch x y = true)
    (h2 : idsMatch y z = true) : idsMatch x z = true := by
  rw [idsMatch_eq_true_iff] at h1 h2 ⊢
  exact h1.trans h2

theorem normalizeId_insert_hyphen (s t : String) :
    normalizeId (s ++ "-" ++ t) = normalizeId (s ++ t) := by
  apply String.ext
  rw [data_normalizeId, data_normalizeId]
  have hd : (s ++ "-" ++ t).data = s.data ++ '-' :: t.data := by simp
  have hd2 : (s ++ t).data = s.data ++ t.data := by simp
  rw [hd, hd2]
  rw [List.filter_append, List.filter_append, List.filter_cons]
  simp

theorem normalizeId_upper (s : String) :
    normalizeId (jsToUpperCase s) = normalizeId s := by
  apply String.ext
  rw [data_normalizeId, data_normalizeId]
  show ((s.data.map jsCharUpper).filter (fun c => c ≠ '-')).map jsCharLower = _
  rw [List.filter_map, List.map_map]
  have hp : ((fun c => decide (c ≠ '-')) ∘ jsCharUpper) = (fun c => decide (c ≠ '-')) := by
    funext c
    simp only [Function.comp_apply, ne_eq, decide_eq_decide]
    exact not_congr (jsCharUpper_hyphen_iff c)
  rw [hp]
  apply List.map_congr_left
  intro c _
  exact jsCharLower_jsCharUpper c

/-! ## Claim C10 -/

/-- Claim C10: normalization algebra.  `normalizeId` is idempotent;
`idsMatch` is reflexive, symmetric and transitive; `idsMatch` is
unaffected by inserting a hyphen anywhere in an id and by ASCII
letter case. -/
theorem claim10_normalization_algebra :
    (∀ s, normalizeId (normalizeId s) = normalizeId s) ∧
    (∀ s, idsMatch s s = true) ∧
    (∀ s t, idsMatch s t = idsMatch t s) ∧
    (∀ s t u, idsMatch s t = true → idsMatch t u = true → idsMatch s u = true) ∧
    (∀ s t u, idsMatch (s ++ "-" ++ t) u = idsMatch (s ++ t) u) ∧
    (∀ s t, idsMatch (jsToUpperCase s) t = idsMatch s t) := by
  refine ⟨normalizeId_idem, idsMatch_refl, idsMatch_comm, idsMatch_trans, ?_, ?_⟩
  · intro s t u
    unfold idsMatch
    rw [normalizeId_insert_hyphen]
  · intro s t
    unfold idsMatch
    rw [normalizeId_upper]

/-- Witness for C10 at concrete inputs: the transitivity hypotheses
are discharged at the ids `A-1`, `a1` and `A1`. -/
theorem claim10_witness : idsMatch "A-1" "A1" = true :=
  (claim10_normalization_algebra.2.2.2.1) "A-1" "a1" "A1" (by decide) (by decide)

/-! ## Claims C1 to C3: the operation vocabulary mismatch

types.ts declares `OperationType` to be the nine granular
`resource:operation` strings and every caller in notion-client.ts
passes such a string (`page:read`, `page:update`, ...), but the
`permissionMap` inside `checkPermission` only maps the four legacy
keys `read`, `write`, `create`, `delete`, the default-permission test
compares `operation === "read"`, and the condition gate tests
`operation === "write" || operation === "create"`.  A granular
operation therefore never passes any of these tests and the engine
denies it unconditionally.  The theorems below evaluate the embedded
code at the concrete inputs named by the claims. -/

/-- The configuration of the C1 scenario: no rules, default read. -/
def c1Config : Config := { rules := [], defaultPermission := "read" }

/-- Claim C1 (failing-input evaluation): with an empty rule list and
default permission `read`, the code denies `page:read` (and every
other granular read-class operation), because the default branch
compares the operation against the literal string `read`.  The claim
says `decide(resource, "page:read")` must return `allowed = true`. -/
theorem claim1_default_policy_eval :
    (checkPermission emptyStore 0 pstate0 c1Config "resourceA" "page:read" none).1 =
      ⟨false, none, "No matching rule and default permission is deny"⟩ ∧
    (checkPermission emptyStore 0 pstate0 c1Config "resourceA" "database:read" none).1.allowed
      = false ∧
    (checkPermission emptyStore 0 pstate0 c1Config "resourceA" "database:query" none).1.allowed
      = false ∧
    (checkPermission emptyStore 0 pstate0 c1Config "resourceA" "block:read" none).1.allowed
      = false ∧
    (checkPermission emptyStore 0 pstate0 c1Config "resourceA" "page:update" none).1 =
      ⟨false, none, "No matching rule and default permission is deny"⟩ ∧
    (checkPermission emptyStore 0 pstate0 ⟨[], "deny"⟩ "resourceA" "page:read" none).1.allowed
      = false ∧
    (checkPermission emptyStore 0 pstate0 c1Config "resourceA" "read" none).1 =
      ⟨true, none, "Allowed by default read permission"⟩ := by
  decide

/-- The store of the C2 scenario: parent chain B1 to P2 to P1. -/
def c2Store : Store := storeOfFun (funOfPairs [("b1", "P2"), ("p2", "P1")])

/-- The rule of the C2 scenario. -/
def docsRule : Rule :=
  { name := "docs", pageId := some "P1", databaseId := none,
    permissions := ["page:read", "block:read"], writeCondition := none }

/-- Claim C2 (failing-input evaluation): with rule `docs` granting
`page:read` and `block:read` on page P1 and resource B1 whose parent
chain is B1 to P2 to P1, the rule does match (the decision names rule
`docs`), but `permissionMap` maps no granular operation, so
`rule.permissions.includes(undefined)` is false and `page:read` is
denied where the claim requires `allowed = true`.  `block:delete` is
denied as the claim states, with the reason naming the rule and the
operation. -/
theorem claim2_matched_rule_eval :
    (checkPermission c2Store 0 pstate0 ⟨[docsRule], "deny"⟩ "B1" "page:read" none).1 =
      ⟨false, some docsRule,
        "Operation " ++ sq ++ "page:read" ++ sq ++ " not allowed by rule " ++
          sq ++ "docs" ++ sq⟩ ∧
    (checkPermission c2Store 0 pstate0 ⟨[docsRule], "deny"⟩ "B1" "block:delete" none).1 =
      ⟨false, some docsRule,
        "Operation " ++ sq ++ "block:delete" ++ sq ++ " not allowed by rule " ++
          sq ++ "docs" ++ sq⟩ := by
  decide

/-- The store of the C3 scenario: page P1 carries a people property
`Assignee` containing user U. -/
def c3Store : Store :=
  { pages := fun _ => Probe.err
    blocks := fun _ => Probe.err
    databases := fun _ => Probe.err
    pageProps := fun x =>
      if x = "P1" then PropsProbe.ok [("Assignee", PropertyValue.people ["U"])]
      else PropsProbe.err }

/-- The condition of the C3 scenario. -/
def c3Condition : WriteCondition :=
  { property := "Assignee", type := CondType.people, equals := CondEquals.str "U" }

/-- The rule of the C3 scenario: grants `page:update` on P1 under the
people condition. -/
def c3Rule : Rule :=
  { name := "cond", pageId := some "P1", databaseId := none,
    permissions := ["page:update"], writeCondition := some c3Condition }

/-- Claim C3 (failing-input evaluation): the condition itself
evaluates to true on page P1 (the `Assignee` property contains U), yet
`decide(P1, "page:update")` is denied with the missing-permission
reason: `page:update` is not in `permissionMap`, and even the
condition gate itself only fires for the literal operations `write`
and `create`, never for the granular write-class operations the claim
names. -/
theorem claim3_condition_gating_eval :
    checkWriteCondition c3Store "P1" c3Condition = true ∧
    (checkPermission c3Store 0 pstate0 ⟨[c3Rule], "deny"⟩ "P1" "page:update" none).1 =
      ⟨false, some c3Rule,
        "Operation " ++ sq ++ "page:update" ++ sq ++ " not allowed by rule " ++
          sq ++ "cond" ++ sq⟩ := by
  decide

/-! ## Hierarchy resolver helper lemmas -/

theorem getParentId_eq (store : Store) (now : Nat) (st : PState) (x : String) :
    getParentId store now st x =
      match cacheFind st.cache (normalizeId x) with
      | some cached =>
          if now < cached.expiresAt then (cached.value, st)
          else getParentIdFetch store now st x (normalizeId x)
      | none => getParentIdFetch store now st x (normalizeId x) := rfl

theorem getParentId_hit (store : Store) (now : Nat) (st : PState) (x : String)
    (e : CacheEntry) (h : cacheFind st.cache (normalizeId x) = some e)
    (hl : now < e.expiresAt) :
    getParentId store now st x = (e.value, st) := by
  rw [getParentId_eq, h]
  simp [hl]

theorem getParentId_miss (store : Store) (now : Nat) (st : PState) (x : String)
    (h : NoLiveEntry st now (normalizeId x)) :
    getParentId store now st x = getParentIdFetch store now st x (normalizeId x) := by
  rw [getParentId_eq]
  cases hc : cacheFind st.cache (normalizeId x) with
  | none => rfl
  | some e =>
    have he := h e hc
    simp only []
    rw [if_neg (by omega)]

theorem getParentIdFetch_cache (store : Store) (now : Nat) (st : PState)
    (x nid : String) :
    (getParentIdFetch store now st x nid).2.cache =
      (nid, ⟨(getParentIdFetch store now st x nid).1, now + CACHE_TTL_MS⟩) :: st.cache := by
  unfold getParentIdFetch
  cases store.pages x with
  | ok f => rfl
  | okNoParent => rfl
  | err =>
    cases store.blocks x with
    | ok f => rfl
    | okNoParent => rfl
    | err =>
      cases store.databases x with
      | ok f => rfl
      | okNoParent => rfl
      | err => rfl

theorem getParentIdFetch_calls (store : Store) (now : Nat) (st : PState)
    (x nid : String) :
    st.calls.length + 1 ≤ (getParentIdFetch store now st x nid).2.calls.length ∧
    (getParentIdFetch store now st x nid).2.calls.length ≤ st.calls.length + 3 := by
  unfold getParentIdFetch
  cases store.pages x with
  | ok f => simp
  | okNoParent => simp
  | err =>
    cases store.blocks x with
    | ok f => simp
    | okNoParent => simp
    | err =>
      cases store.databases x with
      | ok f => simp
      | okNoParent => simp
      | err => simp

theorem getParentId_calls_le (store : Store) (now : Nat) (st : PState) (x : String) :
    (getParentId store now st x).2.calls.length ≤ st.calls.length + 3 := by
  rw [getParentId_eq]
  cases hc : cacheFind st.cache (normalizeId x) with
  | none => exact (getParentIdFetch_calls store now st x (normalizeId x)).2
  | some e =>
    simp only []
    split
    · simp
    · exact (getParentIdFetch_calls store now st x (normalizeId x)).2

/-- After a cache miss resolved at time `now`, a second `getParentId`
for the same id at any time inside the TTL window returns the same
value and leaves the state untouched: the freshly written entry is
live and is served from the cache. -/
theorem getParentId_second_call (store : Store) (now : Nat) (st : PState) (x : String)
    (now2 : Nat) (h : NoLiveEntry st now (normalizeId x))
    (h2 : now2 < now + CACHE_TTL_MS) :
    getParentId store now2 (getParentId store now st x).2 x =
      ((getParentId store now st x).1, (getParentId store now st x).2) := by
  rw [getParentId_miss store now st x h]
  have hfind : cacheFind (getParentIdFetch store now st x (normalizeId x)).2.cache
      (normalizeId x) =
      some ⟨(getParentIdFetch store now st x (normalizeId x)).1, now + CACHE_TTL_MS⟩ := by
    rw [getParentIdFetch_cache store now st x (normalizeId x)]
    unfold cacheFind
    rw [if_pos rfl]
  exact getParentId_hit store now2 _ x _ hfind h2

/-! ## Claim C6 -/

/-- Claim C6: the hierarchy cache contract.  (1) A live entry for the
normalized id is returned with no remote call and no state change.
(2) On a miss (no live entry) the result, including a `none` parent,
is cached under the normalized id with expiry `now + CACHE_TTL_MS`
(ten minutes). (3) On a miss at least one remote call is issued.
(4) A second call for the same id anywhere inside the TTL window
returns the identical value and issues no further remote call.
(5) After `clearCache`, the next `getParentId` issues a new remote
call. -/
theorem claim6_cache_contract :
    (∀ (store : Store) (now : Nat) (st : PState) (x : String) (e : CacheEntry),
      cacheFind st.cache (normalizeId x) = some e → now < e.expiresAt →
      getParentId store now st x = (e.value, st)) ∧
    (∀ (store : Store) (now : Nat) (st : PState) (x : String),
      NoLiveEntry st now (normalizeId x) →
      cacheFind (getParentId store now st x).2.cache (normalizeId x) =
        some ⟨(getParentId store now st x).1, now + CACHE_TTL_MS⟩) ∧
    (∀ (store : Store) (now : Nat) (st : PState) (x : String),
      NoLiveEntry st now (normalizeId x) →
      st.calls.length + 1 ≤ (getParentId store now st x).2.calls.length) ∧
    (∀ (store : Store) (now : Nat) (st : PState) (x : String) (now2 : Nat),
      NoLiveEntry st now (normalizeId x) → now2 < now + CACHE_TTL_MS →
      getParentId store now2 (getParentId store now st x).2 x =
        ((getParentId store now st x).1, (getParentId store now st x).2)) ∧
    (∀ (store : Store) (now : Nat) (st : PState) (x : String),
      st.calls.length + 1 ≤ (getParentId store now (clearCache st) x).2.calls.length) := by
  refine ⟨getParentId_hit, ?_, ?_, getParentId_second_call, ?_⟩
  · intro store now st x h
    rw [getParentId_miss store now st x h]
    rw [getParentIdFetch_cache store now st x (normalizeId x)]
    unfold cacheFind
    rw [if_pos rfl]
  · intro store now st x h
    rw [getParentId_miss store now st x h]
    exact (getParentIdFetch_calls store now st x (normalizeId x)).1
  · intro store now st x
    have hmiss : NoLiveEntry (clearCache st) now (normalizeId x) := by
      intro e he
      simp [clearCache, cacheFind] at he
    rw [getParentId_miss store now (clearCache st) x hmiss]
    exact (getParentIdFetch_calls store now (clearCache st) x (normalizeId x)).1

/-- Witness for C6: a one-entry concrete store; the miss hypotheses
hold in the empty initial state, the hit hypothesis holds in the state
produced by the first call. -/
theorem claim6_witness :
    getParentId (storeOfFun (funOfPairs [("x1", "p1")])) 5
        (getParentId (storeOfFun (funOfPairs [("x1", "p1")])) 0 pstate0 "x1").2 "x1" =
      ((getParentId (storeOfFun (funOfPairs [("x1", "p1")])) 0 pstate0 "x1").1,
       (getParentId (storeOfFun (funOfPairs [("x1", "p1")])) 0 pstate0 "x1").2) ∧
    cacheFind (getParentId (storeOfFun (funOfPairs [("x1", "p1")])) 0 pstate0 "x1").2.cache
        (normalizeId "x1") =
      some ⟨(getParentId (storeOfFun (funOfPairs [("x1", "p1")])) 0 pstate0 "x1").1,
            0 + CACHE_TTL_MS⟩ := by
  constructor
  · exact claim6_cache_contract.2.2.2.1 (storeOfFun (funOfPairs [("x1", "p1")])) 0 pstate0
      "x1" 5 (by intro e he; simp [pstate0, cacheFind] at he) (by decide)
  · exact claim6_cache_contract.2.1 (storeOfFun (funOfPairs [("x1", "p1")])) 0 pstate0
      "x1" (by intro e he; simp [pstate0, cacheFind] at he)

/-! ## Claim C8 -/

/-- Claim C8: probe order and fail-closed lookup.  On a cache miss,
`getParentId` probes page first; a successful page retrieval is
decoded with the page parent shape and no further probe is issued.  If
the page probe throws, the block probe follows, then the database
probe, each decoded with its own shape.  If all three probes throw,
`none` is returned and cached, and a repeat call inside the TTL window
issues no new remote call. -/
theorem claim8_probe_order :
    (∀ (store : Store) (now : Nat) (st : PState) (x : String) (f : PageParentField),
      NoLiveEntry st now (normalizeId x) → store.pages x = Probe.ok f →
      getParentId store now st x =
        (decodePageParent f,
         ⟨(normalizeId x, ⟨decodePageParent f, now + CACHE_TTL_MS⟩) :: st.cache,
          RemoteCall.pageRetrieve x :: st.calls⟩)) ∧
    (∀ (store : Store) (now : Nat) (st : PState) (x : String) (f : BlockParentField),
      NoLiveEntry st now (normalizeId x) → store.pages x = Probe.err →
      store.blocks x = Probe.ok f →
      getParentId store now st x =
        (decodeBlockParent f,
         ⟨(normalizeId x, ⟨decodeBlockParent f, now + CACHE_TTL_MS⟩) :: st.cache,
          RemoteCall.blockRetrieve x :: RemoteCall.pageRetrieve x :: st.calls⟩)) ∧
    (∀ (store : Store) (now : Nat) (st : PState) (x : String) (f : DbParentField),
      NoLiveEntry st now (normalizeId x) → store.pages x = Probe.err →
      store.blocks x = Probe.err → store.databases x = Probe.ok f →
      getParentId store now st x =
        (decodeDbParent f,
         ⟨(normalizeId x, ⟨decodeDbParent f, now + CACHE_TTL_MS⟩) :: st.cache,
          RemoteCall.databaseRetrieve x :: RemoteCall.blockRetrieve x ::
            RemoteCall.pageRetrieve x :: st.calls⟩)) ∧
    (∀ (store : Store) (now : Nat) (st : PState) (x : String),
      NoLiveEntry st now (normalizeId x) → store.pages x = Probe.err →
      store.blocks x = Probe.err → store.databases x = Probe.err →
      getParentId store now st x =
        (none,
         ⟨(normalizeId x, ⟨none, now + CACHE_TTL_MS⟩) :: st.cache,
          RemoteCall.databaseRetrieve x :: RemoteCall.blockRetrieve x ::
            RemoteCall.pageRetrieve x :: st.calls⟩)) ∧
    (∀ (store : Store) (now : Nat) (st : PState) (x : String) (now2 : Nat),
      NoLiveEntry st now (normalizeId x) → now2 < now + CACHE_TTL_MS →
      getParentId store now2 (getParentId store now st x).2 x =
        ((getParentId store now st x).1, (getParentId store now st x).2)) := by
  refine ⟨?_, ?_, ?_, ?_, getParentId_second_call⟩
  · intro store now st x f h hp
    rw [getParentId_miss store now st x h]
    unfold getParentIdFetch
    rw [hp]
  · intro store now st x f h hp hb
    rw [getParentId_miss store now st x h]
    unfold getParentIdFetch
    rw [hp, hb]
  · intro store now st x f h hp hb hd
    rw [getParentId_miss store now st x h]
    unfold getParentIdFetch
    rw [hp, hb, hd]
  · intro store now st x h hp hb hd
    rw [getParentId_miss store now st x h]
    unfold getParentIdFetch
    rw [hp, hb, hd]

/-- A store for the C8 witness whose page probe throws on `w1` but
whose block probe succeeds with a `page_id` parent. -/
def c8Store : Store :=
  { pages := fun _ => Probe.err
    blocks := fun x => if x = "w1" then Probe.ok (BlockParentField.pageId "w2") else Probe.err
    databases := fun _ => Probe.err
    pageProps := fun _ => PropsProbe.err }

/-- Witness for C8: on the concrete store, the block-probe conjunct
and the all-fail conjunct are discharged in the empty initial state. -/
theorem claim8_witness :
    getParentId c8Store 0 pstate0 "w1" =
      (some "w2",
       ⟨[(normalizeId "w1", ⟨some "w2", 0 + CACHE_TTL_MS⟩)],
        [RemoteCall.blockRetrieve "w1", RemoteCall.pageRetrieve "w1"]⟩) ∧
    getParentId c8Store 0 pstate0 "w9" =
      (none,
       ⟨[(normalizeId "w9", ⟨none, 0 + CACHE_TTL_MS⟩)],
        [RemoteCall.databaseRetrieve "w9", RemoteCall.blockRetrieve "w9",
         RemoteCall.pageRetrieve "w9"]⟩) := by
  constructor
  · have h := claim8_probe_order.2.1 c8Store 0 pstate0 "w1" (BlockParentField.pageId "w2")
      (by intro e he; simp [pstate0, cacheFind] at he) rfl (by decide)
    simpa [pstate0] using h
  · have h := claim8_probe_order.2.2.2.1 c8Store 0 pstate0 "w9"
      (by intro e he; simp [pstate0, cacheFind] at he) rfl (by decide) rfl
    simpa [pstate0] using h

/-! ## Claim C5 -/

theorem isDescLoop_succ (store : Store) (now : Nat) (a : String) (fuel : Nat)
    (cur : String) (st : PState) :
    isDescLoop store now a (fuel + 1) cur st =
      if cur == "" then (false, st)
      else
        match getParentId store now st cur with
        | (none, st1) => (false, st1)
        | (some parentId, st1) =>
          if parentId == "" then (false, st1)
          else if idsMatch parentId a then (true, st1)
          else isDescLoop store now a fuel parentId st1 := rfl

theorem isDescLoop_calls_le (store : Store) (now : Nat) (a : String) :
    ∀ (fuel : Nat) (cur : String) (st : PState),
      (isDescLoop store now a fuel cur st).2.calls.length ≤ st.calls.length + 3 * fuel := by
  intro fuel
  induction fuel with
  | zero => intro cur st; simp [isDescLoop]
  | succ n ih =>
    intro cur st
    rw [isDescLoop_succ]
    by_cases hcur : cur == ""
    · simp [hcur]
    · rw [if_neg hcur]
      have hcalls := getParentId_calls_le store now st cur
      cases hget : getParentId store now st cur with
      | mk v st1 =>
        rw [hget] at hcalls
        simp only [] at hcalls
        cases v with
        | none => simp; omega
        | some parentId =>
          simp only []
          by_cases hp : parentId == ""
          · simp [hp]; omega
          · rw [if_neg hp]
            by_cases hm : idsMatch parentId a
            · simp [hm]; omega
            · simp only [hm, if_false, Bool.false_eq_true]
              have := ih parentId st1
              omega

/-- The parent assignment of the C5 chain: eleven parent links, so the
walk from the bottom to the top ancestor needs eleven lookups, one
more than the depth bound 10. -/
def c5ChainStore : Store := storeOfFun (funOfPairs
  [("m00", "m01"), ("m01", "m02"), ("m02", "m03"), ("m03", "m04"),
   ("m04", "m05"), ("m05", "m06"), ("m06", "m07"), ("m07", "m08"),
   ("m08", "m09"), ("m09", "m10"), ("m10", "m11")])

/-- Claim C5: `isDescendantOf` semantics and depth bound.
(1) Equal ids under normalization: true immediately, state untouched,
no parent lookup.  (2) For a nonempty, non-matching resource id whose
parent lookup yields a nonempty parent equal to the ancestor under
normalization, the walk stops with true.  (3) A `none` parent stops
the walk with false.  (4) The walk issues at most `3 * maxDepth`
remote calls (each `getParentId` issues at most three probes), so it
terminates in a bounded number of steps.  (5) On a synthetic chain of
eleven parent links, the check at the default depth 10 returns
false. -/
theorem claim5_isDescendantOf_semantics :
    (∀ (store : Store) (now : Nat) (st : PState) (r a : String) (d : Nat),
      idsMatch r a = true → isDescendantOf store now st r a d = (true, st)) ∧
    (∀ (store : Store) (now : Nat) (st : PState) (r a pid : String) (d : Nat),
      idsMatch r a = false → r ≠ "" →
      (getParentId store now st r).1 = some pid → pid ≠ "" → idsMatch pid a = true →
      isDescendantOf store now st r a (d + 1) = (true, (getParentId store now st r).2)) ∧
    (∀ (store : Store) (now : Nat) (st : PState) (r a : String) (d : Nat),
      idsMatch r a = false → (getParentId store now st r).1 = none →
      (isDescendantOf store now st r a d).1 = false) ∧
    (∀ (store : Store) (now : Nat) (st : PState) (r a : String) (d : Nat),
      (isDescendantOf store now st r a d).2.calls.length ≤ st.calls.length + 3 * d) ∧
    ((isDescendantOf c5ChainStore 0 pstate0 "m00" "m11" 10).1 = false ∧
     (isDescendantOf c5ChainStore 0 pstate0 "m00" "m10" 10).1 = true) := by
  refine ⟨?_, ?_, ?_, ?_, by decide, by decide⟩
  · intro store now st r a d h
    unfold isDescendantOf
    rw [if_pos h]
  · intro store now st r a pid d h hr hp hpne hm
    unfold isDescendantOf
    rw [if_neg (by simp [h]), isDescLoop_succ, if_neg (by simpa using hr)]
    have heta : getParentId store now st r = (some pid, (getParentId store now st r).2) := by
      rw [← hp]
    rw [heta]
    simp only []
    rw [if_neg (by simpa using hpne), if_pos hm]
  · intro store now st r a d h hp
    unfold isDescendantOf
    rw [if_neg (by simp [h])]
    cases d with
    | zero => simp [isDescLoop]
    | succ n =>
      rw [isDescLoop_succ]
      by_cases hr : r == ""
      · simp [hr]
      · rw [if_neg hr]
        have heta : getParentId store now st r = (none, (getParentId store now st r).2) := by
          rw [← hp]
        rw [heta]
  · intro store now st r a d
    unfold isDescendantOf
    by_cases h : idsMatch r a
    · simp [h]
    · rw [if_neg (by simp [h])]
      have := isDescLoop_calls_le store now a d r st
      omega

/-- A one-link store for the C5 witness. -/
def c5WitnessStore : Store := storeOfFun (funOfPairs [("r1", "p1")])

/-- Witness for C5: the equal-ids, parent-match and parent-none
conjuncts discharged at concrete inputs (the last on the empty store,
where every probe throws and the parent comes back `none`). -/
theorem claim5_witness :
    isDescendantOf emptyStore 0 pstate0 "Q-1" "q1" 10 = (true, pstate0) ∧
    isDescendantOf c5WitnessStore 0 pstate0 "r1" "P-1" 7 =
      (true, (getParentId c5WitnessStore 0 pstate0 "r1").2) ∧
    (isDescendantOf emptyStore 0 pstate0 "r1" "p1" 10).1 = false := by
  refine ⟨?_, ?_, ?_⟩
  · exact claim5_isDescendantOf_semantics.1 emptyStore 0 pstate0 "Q-1" "q1" 10 (by decide)
  · exact claim5_isDescendantOf_semantics.2.1 c5WitnessStore 0 pstate0 "r1" "P-1" "p1" 6
      (by decide) (by decide) (by decide) (by decide) (by decide)
  · exact claim5_isDescendantOf_semantics.2.2.1 emptyStore 0 pstate0 "r1" "p1" 10
      (by decide) (by decide)

/-! ## Claim C7 -/

/-- Whether the reported property type agrees with the condition
type: the guard `property.type !== ...` of each switch case. -/
def propTypeMatches : CondType → PropertyValue → Bool
  | .people, .people _ => true
  | .select, .select _ => true
  | .multiSelect, .multiSelect _ => true
  | .status, .status _ => true
  | .checkbox, .checkbox _ => true
  | _, _ => false

/-- Claim C7: the condition evaluator is fail-closed and
type-directed.  `checkWriteCondition` is a total function (it never
throws) returning false when the fetch throws, the page has no
`properties`, the named property is absent, or the reported property
type differs from the condition type; on an agreeing type it returns
true exactly when the type-specific match holds: some person id equals
the expected value, the single selected option name (select, status)
equals the expected string, some multi-select option name equals the
expected string, or the checkbox value strictly equals the expected
boolean. -/
theorem claim7_condition_evaluator :
    (∀ (store : Store) (p : String) (c : WriteCondition),
      store.pageProps p = PropsProbe.err → checkWriteCondition store p c = false) ∧
    (∀ (store : Store) (p : String) (c : WriteCondition),
      store.pageProps p = PropsProbe.okNoProps → checkWriteCondition store p c = false) ∧
    (∀ (store : Store) (p : String) (c : WriteCondition) (props : List (String × PropertyValue)),
      store.pageProps p = PropsProbe.ok props → propFind props c.property = none →
      checkWriteCondition store p c = false) ∧
    (∀ (store : Store) (p : String) (prop : String) (ct : CondType) (eq : CondEquals)
       (props : List (String × PropertyValue)) (pv : PropertyValue),
      store.pageProps p = PropsProbe.ok props → propFind props prop = some pv →
      propTypeMatches ct pv = false →
      checkWriteCondition store p ⟨prop, ct, eq⟩ = false) ∧
    (∀ (store : Store) (p : String) (prop : String) (eq : CondEquals)
       (props : List (String × PropertyValue)) (ids : List String),
      store.pageProps p = PropsProbe.ok props →
      propFind props prop = some (PropertyValue.people ids) →
      (checkWriteCondition store p ⟨prop, CondType.people, eq⟩ = true ↔
        ∃ i ∈ ids, eq = CondEquals.str i)) ∧
    (∀ (store : Store) (p : String) (prop : String) (eq : CondEquals)
       (props : List (String × PropertyValue)) (name : Option String),
      store.pageProps p = PropsProbe.ok props →
      propFind props prop = some (PropertyValue.select name) →
      (checkWriteCondition store p ⟨prop, CondType.select, eq⟩ = true ↔
        ∃ s, name = some s ∧ eq = CondEquals.str s)) ∧
    (∀ (store : Store) (p : String) (prop : String) (eq : CondEquals)
       (props : List (String × PropertyValue)) (name : Option String),
      store.pageProps p = PropsProbe.ok props →
      propFind props prop = some (PropertyValue.status name) →
      (checkWriteCondition store p ⟨prop, CondType.status, eq⟩ = true ↔
        ∃ s, name = some s ∧ eq = CondEquals.str s)) ∧
    (∀ (store : Store) (p : String) (prop : String) (eq : CondEquals)
       (props : List (String × PropertyValue)) (names : List String),
      store.pageProps p = PropsProbe.ok props →
      propFind props prop = some (PropertyValue.multiSelect names) →
      (checkWriteCondition store p ⟨prop, CondType.multiSelect, eq⟩ = true ↔
        ∃ n ∈ names, eq = CondEquals.str n)) ∧
    (∀ (store : Store) (p : String) (prop : String) (eq : CondEquals)
       (props : List (String × PropertyValue)) (b : Bool),
      store.pageProps p = PropsProbe.ok props →
      propFind props prop = some (PropertyValue.checkbox b) →
      checkWriteCondition store p ⟨prop, CondType.checkbox, eq⟩ = strictEqBool eq b) := by
  have hstr : ∀ (eq : CondEquals) (i : String),
      strictEqStr eq i = true ↔ eq = CondEquals.str i := by
    intro eq i
    cases eq with
    | str s =>
      constructor
      · intro h
        have hs : s = i := by simpa [strictEqStr] using h
        rw [hs]
      · intro h
        cases h
        simp [strictEqStr]
    | bool b => simp [strictEqStr]
  refine ⟨?_, ?_, ?_, ?_, ?_, ?_, ?_, ?_, ?_⟩
  · intro store p c h
    unfold checkWriteCondition
    rw [h]
  · intro store p c h
    unfold checkWriteCondition
    rw [h]
  · intro store p c props h hf
    unfold checkWriteCondition
    rw [h]
    simp only []
    rw [hf]
  · intro store p prop ct eq props pv h hf ht
    unfold checkWriteCondition
    rw [h]
    simp only []
    rw [hf]
    cases ct <;> cases pv <;> simp_all [propTypeMatches]
  · intro store p prop eq props ids h hf
    unfold checkWriteCondition
    rw [h]
    simp only []
    rw [hf]
    simp only [List.any_eq_true]
    constructor
    · rintro ⟨i, hi, he⟩
      exact ⟨i, hi, (hstr eq i).mp he⟩
    · rintro ⟨i, hi, he⟩
      exact ⟨i, hi, (hstr eq i).mpr he⟩
  · intro store p prop eq props name h hf
    unfold checkWriteCondition
    rw [h]
    simp only []
    rw [hf]
    cases name with
    | none => simp
    | some s => simp [hstr eq s, eq_comm]
  · intro store p prop eq props name h hf
    unfold checkWriteCondition
    rw [h]
    simp only []
    rw [hf]
    cases name with
    | none => simp
    | some s => simp [hstr eq s, eq_comm]
  · intro store p prop eq props names h hf
    unfold checkWriteCondition
    rw [h]
    simp only []
    rw [hf]
    simp only [List.any_eq_true]
    constructor
    · rintro ⟨n, hn, he⟩
      exact ⟨n, hn, (hstr eq n).mp he⟩
    · rintro ⟨n, hn, he⟩
      exact ⟨n, hn, (hstr eq n).mpr he⟩
  · intro store p prop eq props b h hf
    unfold checkWriteCondition
    rw [h]
    simp only []
    rw [hf]

/-- Witness for C7: the fetch-fails conjunct on the empty store and
the people conjunct on the C3 store (page P1, property Assignee
containing U). -/
theorem claim7_witness :
    checkWriteCondition emptyStore "P9"
      ⟨"Assignee", CondType.people, CondEquals.str "U"⟩ = false ∧
    checkWriteCondition c3Store "P1"
      ⟨"Assignee", CondType.people, CondEquals.str "U"⟩ = true := by
  constructor
  · exact claim7_condition_evaluator.1 emptyStore "P9"
      ⟨"Assignee", CondType.people, CondEquals.str "U"⟩ rfl
  · exact (claim7_condition_evaluator.2.2.2.2.1 c3Store "P1" "Assignee"
      (CondEquals.str "U") [("Assignee", PropertyValue.people ["U"])] ["U"]
      (by decide) (by decide)).mpr ⟨"U", by decide, rfl⟩

/-! ## Claim C4 -/

theorem matchedDecision_rule (store : Store) (rule : Rule) (rid op : String)
    (pic : Option String) (st : PState) :
    (matchedDecision store rule rid op pic st).1.rule = some rule := by
  unfold matchedDecision
  simp only []
  repeat' split
  all_goals rfl

theorem defaultDecision_rule (dp op : String) : (defaultDecision dp op).rule = none := by
  unfold defaultDecision
  split <;> rfl

theorem checkPermissionGo_rule_eq_find (store : Store) (now : Nat)
    (rid op : String) (pic : Option String) (dp : String) :
    ∀ (rules : List Rule) (st : PState),
      (checkPermissionGo store now rid op pic dp rules st).1.rule =
        (findMatchingRule store now rid rules st).1 := by
  intro rules
  induction rules with
  | nil =>
    intro st
    show (defaultDecision dp op).rule = none
    exact defaultDecision_rule dp op
  | cons r rest ih =>
    intro st
    unfold checkPermissionGo findMatchingRule
    by_cases hm : (ruleMatches store now st rid r).1 = true
    · simp only [hm, if_true]
      exact matchedDecision_rule store r rid op pic (ruleMatches store now st rid r).2
    · simp only [Bool.not_eq_true] at hm
      simp only [hm, Bool.false_eq_true, if_false]
      exact ih (ruleMatches store now st rid r).2

theorem ruleMatches_page (store : Store) (now : Nat) (st : PState) (rid : String)
    (r : Rule) (p : String) (hp : r.pageId = some p) (hne : p ≠ "") :
    ruleMatches store now st rid r = isDescendantOf store now st rid p 10 := by
  unfold ruleMatches
  rw [hp]
  simp [jsTruthy, hne]

theorem ruleMatches_db (store : Store) (now : Nat) (st : PState) (rid : String)
    (r : Rule) (d : String) (hpage : jsTruthy r.pageId = false)
    (hd : r.databaseId = some d) (hne : d ≠ "") :
    ((ruleMatches store now st rid r).1 = true ↔
      (idsMatch rid d = true ∨
        ∃ pid, (getParentId store now st rid).1 = some pid ∧ pid ≠ "" ∧
          idsMatch pid d = true)) := by
  unfold ruleMatches
  rw [hpage, hd]
  simp only [Bool.false_eq_true, if_false]
  have htruthy : jsTruthy (some d) = true := by simp [jsTruthy, hne]
  rw [htruthy]
  simp only [if_true, Option.getD_some]
  by_cases hid : idsMatch rid d = true
  · simp [hid]
  · rw [if_neg (by simp [hid])]
    cases hget : getParentId store now st rid with
    | mk v st1 =>
      cases v with
      | none => simp [hid]
      | some pid =>
        simp only []
        constructor
        · intro h
          simp only [Bool.and_eq_true, bne_iff_ne, ne_eq] at h
          exact Or.inr ⟨pid, rfl, h.1, h.2⟩
        · rintro (h | ⟨pid2, hpid2, hne2, hm2⟩)
          · exact absurd h hid
          · cases hpid2
            simp only [Bool.and_eq_true, bne_iff_ne, ne_eq]
            exact ⟨hne2, hm2⟩

/-- The store of the C4 shallow-match example: block x1 inside page
Pg, page Pg directly inside database D. -/
def c4Store : Store := storeOfFun (funOfPairs [("x1", "Pg"), ("pg", "D")])

/-- The database-scoped rule of the C4 example. -/
def c4DbRule : Rule :=
  { name := "dbr", pageId := none, databaseId := some "D",
    permissions := ["database:read"], writeCondition := none }

/-- Claim C4: rule matching semantics.  (1) The decision names exactly
the rule the first-match loop finds (later rules are not consulted
once a rule matches: conjunct 2).  (3) A page-scoped rule matches
exactly by `isDescendantOf` at the default depth 10.  (4) A
database-scoped rule matches exactly when the resource is the
database under normalization or its immediate parent is (one
`getParentId` hop, nonempty).  (5) Concretely, a block two levels
below a page filed in database D does not match the database rule,
although it is a full-depth descendant of D; the page itself and the
database do match. -/
theorem claim4_rule_matching :
    (∀ (store : Store) (now : Nat) (rid op : String) (pic : Option String)
       (dp : String) (rules : List Rule) (st : PState),
      (checkPermissionGo store now rid op pic dp rules st).1.rule =
        (findMatchingRule store now rid rules st).1) ∧
    (∀ (store : Store) (now : Nat) (rid op : String) (pic : Option String)
       (dp : String) (r : Rule) (rest rest' : List Rule) (st : PState),
      (ruleMatches store now st rid r).1 = true →
      checkPermissionGo store now rid op pic dp (r :: rest) st =
        checkPermissionGo store now rid op pic dp (r :: rest') st) ∧
    (∀ (store : Store) (now : Nat) (st : PState) (rid : String) (r : Rule) (p : String),
      r.pageId = some p → p ≠ "" →
      ruleMatches store now st rid r = isDescendantOf store now st rid p 10) ∧
    (∀ (store : Store) (now : Nat) (st : PState) (rid : String) (r : Rule) (d : String),
      jsTruthy r.pageId = false → r.databaseId = some d → d ≠ "" →
      ((ruleMatches store now st rid r).1 = true ↔
        (idsMatch rid d = true ∨
          ∃ pid, (getParentId store now st rid).1 = some pid ∧ pid ≠ "" ∧
            idsMatch pid d = true))) ∧
    ((ruleMatches c4Store 0 pstate0 "x1" c4DbRule).1 = false ∧
     (ruleMatches c4Store 0 pstate0 "Pg" c4DbRule).1 = true ∧
     (ruleMatches c4Store 0 pstate0 "D" c4DbRule).1 = true ∧
     (isDescendantOf c4Store 0 pstate0 "x1" "D" 10).1 = true) := by
  refine ⟨checkPermissionGo_rule_eq_find, ?_, ruleMatches_page, ruleMatches_db,
    by decide, by decide, by decide, by decide⟩
  intro store now rid op pic dp r rest rest' st hm
  unfold checkPermissionGo
  simp only [hm, if_true]

/-- Witness for C4: the page-scope and database-scope
characterizations applied at concrete inputs on the C4 store. -/
theorem claim4_witness :
    ruleMatches c4Store 0 pstate0 "x1" docsRule =
      isDescendantOf c4Store 0 pstate0 "x1" "P1" 10 ∧
    ((ruleMatches c4Store 0 pstate0 "Pg" c4DbRule).1 = true ↔
      (idsMatch "Pg" "D" = true ∨
        ∃ pid, (getParentId c4Store 0 pstate0 "Pg").1 = some pid ∧ pid ≠ "" ∧
          idsMatch pid "D" = true)) := by
  constructor
  · exact claim4_rule_matching.2.2.1 c4Store 0 pstate0 "x1" docsRule "P1" rfl (by decide)
  · exact claim4_rule_matching.2.2.2.1 c4Store 0 pstate0 "Pg" c4DbRule "D"
      (by decide) rfl (by decide)

/-! ## Claim C9: pure-walk lemmas -/

theorem reachesLoop_succ (g : String → Option String) (a : String) (fuel : Nat)
    (cur : String) :
    reachesLoop g a (fuel + 1) cur =
      if cur == "" then false
      else
        match g cur with
        | none => false
        | some parentId =>
          if parentId == "" then false
          else if idsMatch parentId a then true
          else reachesLoop g a fuel parentId := rfl

theorem reachesLoop_ne_empty (g : String → Option String) (a : String) (n : Nat)
    (cur : String) (h : reachesLoop g a n cur = true) : cur ≠ "" := by
  cases n with
  | zero => simp [reachesLoop] at h
  | succ m =>
    rw [reachesLoop_succ] at h
    by_cases hcur : cur == ""
    · rw [if_pos hcur] at h; simp at h
    · simpa using hcur

theorem reachesLoop_succ_mono (g : String → Option String) (a : String) :
    ∀ (n : Nat) (cur : String), reachesLoop g a n cur = true →
      reachesLoop g a (n + 1) cur = true := by
  intro n
  induction n with
  | zero => intro cur h; simp [reachesLoop] at h
  | succ m ih =>
    intro cur h
    rw [reachesLoop_succ] at h
    rw [reachesLoop_succ]
    by_cases hcur : cur == ""
    · rw [if_pos hcur] at h; simp at h
    · rw [if_neg hcur] at h
      rw [if_neg hcur]
      cases hg : g cur with
      | none => rw [hg] at h; simp at h
      | some p =>
        rw [hg] at h
        simp only [] at h ⊢
        by_cases hp : p == ""
        · rw [if_pos hp] at h; simp at h
        · rw [if_neg hp] at h ⊢
          by_cases hm : idsMatch p a
          · rw [if_pos hm]
          · rw [if_neg hm] at h ⊢
            exact ih p h

theorem reachesLoop_mono (g : String → Option String) (a : String) (n : Nat)
    (cur : String) (hr : reachesLoop g a n cur = true) :
    ∀ m, n ≤ m → reachesLoop g a m cur = true := by
  intro m
  induction m with
  | zero =>
    intro hm
    have hn : n = 0 := by omega
    subst hn
    exact hr
  | succ i ih =>
    intro hm
    by_cases hni : n ≤ i
    · exact reachesLoop_succ_mono g a i cur (ih hni)
    · have hn : n = i + 1 := by omega
      subst hn
      exact hr

theorem reachesLoop_norm_congr (g : String → Option String) (hg : NormInvariant g)
    (a : String) (n : Nat) (x y : String) (hx : x ≠ "") (hy : y ≠ "")
    (hxy : normalizeId x = normalizeId y) :
    reachesLoop g a n x = reachesLoop g a n y := by
  cases n with
  | zero => rfl
  | succ m =>
    rw [reachesLoop_succ, reachesLoop_succ]
    rw [if_neg (by simpa using hx), if_neg (by simpa using hy)]
    rw [hg x y hxy]

theorem reachesLoop_trans (g : String → Option String) (hg : NormInvariant g)
    (B C : String) (k : Nat) :
    ∀ (j : Nat) (A : String), reachesLoop g B j A = true →
      descends g B C k = true → reachesLoop g C (j + k) A = true := by
  intro j
  induction j with
  | zero => intro A h1 _; simp [reachesLoop] at h1
  | succ m ih =>
    intro A h1 h2
    rw [reachesLoop_succ] at h1
    by_cases hA : A == ""
    · rw [if_pos hA] at h1; simp at h1
    · rw [if_neg hA] at h1
      cases hgA : g A with
      | none => rw [hgA] at h1; simp at h1
      | some p =>
        rw [hgA] at h1
        simp only [] at h1
        by_cases hp : p == ""
        · rw [if_pos hp] at h1; simp at h1
        · rw [if_neg hp] at h1
          have hstep : m + 1 + k = (m + k) + 1 := by omega
          rw [hstep, reachesLoop_succ, if_neg hA, hgA]
          simp only []
          rw [if_neg hp]
          by_cases hpc : idsMatch p C
          · rw [if_pos hpc]
          · rw [if_neg hpc]
            by_cases hpB : idsMatch p B
            · have h2' : idsMatch B C = true ∨ reachesLoop g C k B = true := by
                simpa [descends] using h2
              rcases h2' with hBC | hBwalk
              · exact absurd (idsMatch_trans p B C hpB hBC) hpc
              · have hBne : B ≠ "" := reachesLoop_ne_empty g C k B hBwalk
                have hpe : reachesLoop g C k p = reachesLoop g C k B :=
                  reachesLoop_norm_congr g hg C k p B (by simpa using hp) hBne
                    ((idsMatch_eq_true_iff p B).mp hpB)
                have hkp : reachesLoop g C k p = true := by rw [hpe]; exact hBwalk
                exact reachesLoop_mono g C k p hkp (m + k) (by omega)
            · rw [if_neg hpB] at h1
              exact ih p h1 h2

theorem descends_trans (g : String → Option String) (hg : NormInvariant g)
    (A B C : String) (j k d : Nat) (hA : A ≠ "")
    (h1 : descends g A B j = true) (h2 : descends g B C k = true)
    (hjk : j + k ≤ d) : descends g A C d = true := by
  have h1' : idsMatch A B = true ∨ reachesLoop g B j A = true := by
    simpa [descends] using h1
  rcases h1' with hAB | hwalkAB
  · have h2' : idsMatch B C = true ∨ reachesLoop g C k B = true := by
      simpa [descends] using h2
    rcases h2' with hBC | hwalkBC
    · unfold descends
      rw [idsMatch_trans A B C hAB hBC]
      rfl
    · have hBne : B ≠ "" := reachesLoop_ne_empty g C k B hwalkBC
      have hAC : reachesLoop g C k A = true := by
        rw [reachesLoop_norm_congr g hg C k A B hA hBne
          ((idsMatch_eq_true_iff A B).mp hAB)]
        exact hwalkBC
      unfold descends
      rw [reachesLoop_mono g C k A hAC d (by omega)]
      simp
  · have hw := reachesLoop_trans g hg B C k j A hwalkAB h2
    unfold descends
    rw [reachesLoop_mono g C (j + k) A hw d hjk]
    simp

/-! ## Claim C9: bridge between the engine and the pure walk -/

theorem storeOfFun_pages (g : String → Option String) (x : String) :
    (storeOfFun g).pages x =
      match g x with
      | some p => Probe.ok (PageParentField.pageId p)
      | none => Probe.ok PageParentField.other := rfl

theorem cacheFind_cons (k : String) (e : CacheEntry)
    (rest : List (String × CacheEntry)) (key : String) :
    cacheFind ((k, e) :: rest) key = if k = key then some e else cacheFind rest key := rfl

theorem fetch_storeOfFun (g : String → Option String) (hg : NormInvariant g)
    (now : Nat) (st : PState) (x : String) (hc : Coh g now st) :
    (getParentIdFetch (storeOfFun g) now st x (normalizeId x)).1 = g x ∧
      Coh g now (getParentIdFetch (storeOfFun g) now st x (normalizeId x)).2 := by
  have hgxnorm : g (normalizeId x) = g x := hg _ _ (normalizeId_idem x)
  unfold getParentIdFetch
  rw [storeOfFun_pages]
  cases hgx : g x with
  | some p =>
    simp only []
    constructor
    · rfl
    · intro key e hfind hlive
      rw [cacheFind_cons] at hfind
      by_cases hk : normalizeId x = key
      · rw [if_pos hk] at hfind
        cases hfind
        simp only [decodePageParent]
        rw [← hk, hgxnorm, hgx]
      · rw [if_neg hk] at hfind
        exact hc key e hfind hlive
  | none =>
    simp only []
    constructor
    · rfl
    · intro key e hfind hlive
      rw [cacheFind_cons] at hfind
      by_cases hk : normalizeId x = key
      · rw [if_pos hk] at hfind
        cases hfind
        simp only [decodePageParent]
        rw [← hk, hgxnorm, hgx]
      · rw [if_neg hk] at hfind
        exact hc key e hfind hlive

theorem getParentId_storeOfFun (g : String → Option String) (hg : NormInvariant g)
    (now : Nat) (st : PState) (x : String) (hc : Coh g now st) :
    (getParentId (storeOfFun g) now st x).1 = g x ∧
      Coh g now (getParentId (storeOfFun g) now st x).2 := by
  rw [getParentId_eq]
  cases hfind : cacheFind st.cache (normalizeId x) with
  | none =>
    simp only []
    exact fetch_storeOfFun g hg now st x hc
  | some e =>
    simp only []
    by_cases hlive : now < e.expiresAt
    · rw [if_pos hlive]
      constructor
      · have hv := hc (normalizeId x) e hfind hlive
        show e.value = g x
        rw [hv]
        exact hg _ _ (normalizeId_idem x)
      · exact hc
    · rw [if_neg hlive]
      exact fetch_storeOfFun g hg now st x hc

theorem isDescLoop_storeOfFun (g : String → Option String) (hg : NormInvariant g)
    (now : Nat) (a : String) :
    ∀ (fuel : Nat) (cur : String) (st : PState), Coh g now st →
      (isDescLoop (storeOfFun g) now a fuel cur st).1 = reachesLoop g a fuel cur ∧
      Coh g now (isDescLoop (storeOfFun g) now a fuel cur st).2 := by
  intro fuel
  induction fuel with
  | zero => intro cur st hc; exact ⟨rfl, hc⟩
  | succ m ih =>
    intro cur st hc
    rw [isDescLoop_succ, reachesLoop_succ]
    by_cases hcur : cur == ""
    · rw [if_pos hcur, if_pos hcur]
      exact ⟨rfl, hc⟩
    · rw [if_neg hcur, if_neg hcur]
      obtain ⟨hval, hcoh⟩ := getParentId_storeOfFun g hg now st cur hc
      cases hget : getParentId (storeOfFun g) now st cur with
      | mk v st1 =>
        rw [hget] at hval hcoh
        simp only [] at hval hcoh
        rw [← hval]
        cases v with
        | none => exact ⟨rfl, hcoh⟩
        | some p =>
          simp only []
          by_cases hp : p == ""
          · rw [if_pos hp, if_pos hp]
            exact ⟨rfl, hcoh⟩
          · rw [if_neg hp, if_neg hp]
            by_cases hm : idsMatch p a
            · rw [if_pos hm, if_pos hm]
              exact ⟨rfl, hcoh⟩
            · rw [if_neg hm, if_neg hm]
              exact ih p st1 hcoh

theorem isDescendantOf_storeOfFun (g : String → Option String) (hg : NormInvariant g)
    (now : Nat) (st : PState) (r a : String) (d : Nat) (hc : Coh g now st) :
    (isDescendantOf (storeOfFun g) now st r a d).1 = descends g r a d := by
  unfold isDescendantOf
  by_cases h : idsMatch r a = true
  · rw [if_pos h]
    unfold descends
    rw [h]
    rfl
  · have hf : idsMatch r a = false := by simpa using h
    rw [if_neg (by simp [hf])]
    unfold descends
    rw [hf, Bool.false_or]
    exact (isDescLoop_storeOfFun g hg now a d r st hc).1

theorem normInvariant_funOfPairs (pairs : List (String × String)) :
    NormInvariant (funOfPairs pairs) := by
  intro x y h
  unfold funOfPairs
  rw [h]

theorem coh_nil (g : String → Option String) (now : Nat) (calls : List RemoteCall) :
    Coh g now ⟨[], calls⟩ := by
  intro k e h
  simp [cacheFind] at h

/-! ## Claim C9 -/

/-- The parent assignment of the C9 counterexample: a chain of eleven
parent links n00 to n11.  n00 reaches n06 in six lookups and n06
reaches n11 in five, each within the depth bound 10, but n00 reaches
n11 only in eleven lookups, which exceeds the bound. -/
def c9ChainStore : Store := storeOfFun (funOfPairs
  [("n00", "n01"), ("n01", "n02"), ("n02", "n03"), ("n03", "n04"),
   ("n04", "n05"), ("n05", "n06"), ("n06", "n07"), ("n07", "n08"),
   ("n08", "n09"), ("n09", "n10"), ("n10", "n11")])

/-- Counterexample to Claim C9 as stated: on the chain store,
`isDescendantOf(n00, n06)` and `isDescendantOf(n06, n11)` both hold at
the default depth 10, yet `isDescendantOf(n00, n11)` is false, because
the composite walk needs eleven parent lookups and the depth bound
cuts it off. -/
theorem claim9_counterexample :
    (isDescendantOf c9ChainStore 0 pstate0 "n00" "n06" 10).1 = true ∧
    (isDescendantOf c9ChainStore 0 pstate0 "n06" "n11" 10).1 = true ∧
    (isDescendantOf c9ChainStore 0 pstate0 "n00" "n11" 10).1 = false := by
  refine ⟨by decide, by decide, by decide⟩

/-- Claim C9 as amended: descendant transitivity holds within the
depth bound, in the sense that when the walk from A reaches B within
`j` lookups, the walk from B reaches C within `k` lookups, and
`j + k ≤ 10`, then `isDescendantOf(A, C)` holds at the default depth
10.  Hypotheses: the store realizes a parent assignment `g` that
respects id normalization, the resource id A is nonempty (the
JavaScript loop skips an empty-string id), and the cache state is
coherent with `g` (for example empty). -/
theorem claim9_amended_transitivity (g : String → Option String) (A B C : String)
    (j k : Nat) (now : Nat) (st : PState) (hg : NormInvariant g) (hA : A ≠ "")
    (hc : Coh g now st)
    (h1 : (isDescendantOf (storeOfFun g) now st A B j).1 = true)
    (h2 : (isDescendantOf (storeOfFun g) now st B C k).1 = true)
    (hjk : j + k ≤ 10) :
    (isDescendantOf (storeOfFun g) now st A C 10).1 = true := by
  rw [isDescendantOf_storeOfFun g hg now st A B j hc] at h1
  rw [isDescendantOf_storeOfFun g hg now st B C k hc] at h2
  rw [isDescendantOf_storeOfFun g hg now st A C 10 hc]
  exact descends_trans g hg A B C j k 10 hA h1 h2 hjk

/-- Witness for the amended C9: a two-link chain aa to bb to cc, with
one lookup for each leg. -/
theorem claim9_witness :
    (isDescendantOf (storeOfFun (funOfPairs [("aa", "bb"), ("bb", "cc")])) 0 pstate0
      "aa" "cc" 10).1 = true :=
  claim9_amended_transitivity (funOfPairs [("aa", "bb"), ("bb", "cc")])
    "aa" "bb" "cc" 1 1 0 pstate0
    (normInvariant_funOfPairs [("aa", "bb"), ("bb", "cc")]) (by decide)
    (coh_nil (funOfPairs [("aa", "bb"), ("bb", "cc")]) 0 [])
    (by decide) (by decide) (by decide)

end SafeNotion
